import Mathlib

/-!
Shallow embedding of the Huell Howser archive scraper (src/unnamed/part_000,
with src/index.js an earlier variant of the same functions). JavaScript
effects are made explicit: network I/O is an `Env` of pure response
functions, thrown values are `Except JSError`, the mutable `CACHE` object is
threaded as a value, and every network round trip is counted.
-/

namespace Scraper

/-- Values a JavaScript computation can fail with: a thrown string primitive
(the code only ever throws and rejects string literals), a runtime
`TypeError`, or a rejected `Error` object (library failures such as
feed-parse errors or network-layer rejections). -/
inductive JSError where
  | thrown (msg : String)
  | typeError (msg : String)
  | errorObj (msg : String)
deriving Repr, DecidableEq

/-- JavaScript numbers as they occur in this program: integers, or NaN from
`parseInt` of a non-numeric string. Floats do not arise. -/
inductive JSNum where
  | nan
  | int (n : Int)
deriving Repr, DecidableEq

/-- Decidable equality of fallible results (`Except` carries no derived
instance in core). -/
instance {ε α : Type} [DecidableEq ε] [DecidableEq α] : DecidableEq (Except ε α) :=
  fun a b =>
    match a, b with
    | .ok x, .ok y =>
      if h : x = y then .isTrue (by rw [h]) else .isFalse (fun he => h (Except.ok.inj he))
    | .ok _, .error _ => .isFalse (fun he => Except.noConfusion he)
    | .error _, .ok _ => .isFalse (fun he => Except.noConfusion he)
    | .error e, .error f =>
      if h : e = f then .isTrue (by rw [h]) else .isFalse (fun he => h (Except.error.inj he))

/-- The ASCII apostrophe character. -/
def apos : Char := Char.ofNat 39

/-- The backslash character. -/
def backsl : Char := Char.ofNat 92

/-- Whitespace skipped by `parseInt`. -/
def isJsSpace (c : Char) : Bool := c = ' ' || c = '\t' || c = '\n' || c = '\r'

/-- Accumulate a decimal digit run into a natural number. -/
def digitsToNat : List Char → Nat → Nat
  | [], acc => acc
  | c :: r, acc => digitsToNat r (acc * 10 + (c.toNat - 48))

/-- Model of JavaScript `parseInt` on the strings this program feeds it:
leading whitespace, an optional sign, then a leading run of decimal digits;
no leading digit parses to NaN. (The `0x` radix detection of full `parseInt`
never fires on a decimal content-length header and is not modelled.) -/
def jsParseInt (s : String) : JSNum :=
  let cs := s.data.dropWhile isJsSpace
  let signed :=
    match cs with
    | c :: r => if c = '-' then (true, r) else if c = '+' then (false, r) else (false, cs)
    | [] => (false, [])
  let ds := signed.2.takeWhile Char.isDigit
  if ds = [] then .nan
  else
    let n : Int := Int.ofNat (digitsToNat ds 0)
    .int (if signed.1 then -n else n)

/-- JavaScript `+` restricted to the numbers this program adds. -/
def jsAdd : JSNum → JSNum → JSNum
  | .int a, .int b => .int (a + b)
  | _, _ => .nan

/-- Lookup in an association list representing a JavaScript object; the most
recent binding wins. -/
def alGet {κ β : Type} [DecidableEq κ] : List (κ × β) → κ → Option β
  | [], _ => none
  | (k, v) :: r, key => if key = k then some v else alGet r key

/-- JavaScript object property assignment, modelled by consing a binding that
shadows any earlier one. -/
def alPut {κ β : Type} [DecidableEq κ] (l : List (κ × β)) (k : κ) (v : β) :
    List (κ × β) :=
  (k, v) :: l

/-- JavaScript `String.prototype.startsWith`. -/
def jsStartsWith (s pre : String) : Bool := pre.data.isPrefixOf s.data

/-- Global single-character replacement, as in `.replace(/ /g, '.')`. -/
def replAllCh (a b : Char) (s : String) : String :=
  String.mk (s.data.map (fun c => if c = a then b else c))

/-- Global apostrophe removal, as in `.replace(/'/g, '')`. -/
def removeApos (s : String) : String :=
  String.mk (s.data.filter (fun c => c != apos))

/-- Global replacement of ampersands, as in `.replace(/&/g, 'and')`. -/
def replAmpAnd (s : String) : String :=
  String.mk ((s.data.map (fun c => if c = '&' then ['a', 'n', 'd'] else [c])).flatten)

/-- One concrete video asset (the objects built by both extraction
strategies): source URL, quality label and probed byte size. -/
structure Video where
  src : String
  label : String
  size : JSNum
deriving Repr, DecidableEq

/-- The `videos` object of a page: at most one entry per quality key. -/
structure Videos where
  HD : Option Video := none
  SD : Option Video := none
deriving Repr, DecidableEq

/-- A resolved page as built by the extractor and later mutated by the crawl
loop; `show` and `renamed` are attached after extraction (`show` is a Lean
keyword, hence the trailing underscore). -/
structure Page where
  pageUrl : String
  sourceUrl : String
  title : String
  videos : Videos
  subtitles : Option String := none
  show_ : Option String := none
  renamed : Option String := none
deriving Repr, DecidableEq

/-- One TVDB catalog episode; `episodeName` may be null in the raw data. -/
structure Episode where
  episodeName : Option String
  airedSeason : Nat
  airedEpisodeNumber : Nat
deriving Repr, DecidableEq

/-- One entry of a JW-Player `sources` array. -/
structure JWSource where
  type : String
  file : String
  width : Nat
deriving Repr, DecidableEq

/-- One JW-Player playlist entry; only its `sources` field is consumed. -/
structure JWEntry where
  sources : List JWSource
deriving Repr, DecidableEq

/-- The decoded `jwConfig` JSON literal. The outer `Option` is presence of
the `playlist` key (`'playlist' in config`), the inner its truthiness
(`!config.playlist`); a present truthy playlist is a list of entries. -/
structure JWConfig where
  playlist : Option (Option (List JWEntry))
deriving Repr, DecidableEq

/-- A fetched article page as seen through the cheerio selectors applied to
it: the text of the title selector, the `src` attribute of every iframe, and
the `src` attribute of every script tag, in document order. -/
structure Doc where
  title : String
  iframeSrcs : List String
  scriptSrcs : List String
deriving Repr, DecidableEq

/-- One `<video> <source>` child of the iframe document. -/
structure SourceAttr where
  src : String
  label : String
deriving Repr, DecidableEq

/-- A fetched iframe document as seen through the selectors applied to it:
`video > source` attribute pairs and `video > track` subtitle URLs. -/
structure IframeDoc where
  videoSources : List SourceAttr
  videoTracks : List String
deriving Repr, DecidableEq

/-- What fetching a feed URL yields: either the FeedParser `error` event
fires (rejecting with an `Error` object), or the `meta` event carries the
feed title and the `readable` events deliver the item links. -/
inductive FeedOutcome where
  | parseError (msg : String)
  | meta (title : String) (links : List String)
deriving Repr, DecidableEq

/-- The persisted `CACHE`: `pages` maps page URL to resolved page, `tvdb`
maps series id to its fetched episode list. -/
structure Cache where
  pages : List (String × Page) := []
  tvdb : List (Nat × List Episode) := []
deriving Repr, DecidableEq

/-- The per-show fuzzyset memo (`SHOWS[key].fuzzyset`), recorded as the list
of episode names the index was built from. -/
abbrev MemoSt := List (String × List String)

/-- The network and external-library environment. Every field is a pure
response function for one kind of request the program makes; the fuzzyset
library and `JSON.parse` are external collaborators modelled as oracles. -/
structure Env where
  pageDoc : String → Doc
  iframeDoc : String → IframeDoc
  scriptContent : String → String
  jsonParse : String → Except JSError JWConfig
  contentLength : String → Option String
  tvdbFetch : Nat → Except JSError (List Episode)
  fuzzyGet : List String → String → Option (List (Rat × String))
  feed : String → FeedOutcome

/-- Static per-show configuration from the `SHOWS` table. -/
structure ShowDesc where
  name : String
  tvdb_id : Option Nat := none
deriving Repr, DecidableEq

/-- The `SHOWS` table (the `feedUrl` field attached at startup is the value
of `categoryFeedUrl` on the key and is computed where needed). -/
def SHOWS : String → Option ShowDesc := fun key =>
  if key = "alaska-week" then some { name := "Alaska Week" }
  else if key = "california-missions" then some { name := "California Missions" }
  else if key = "californias-communities" then
    some { name := "California\x27s Communities" }
  else if key = "californias-gold" then
    some { name := "California\x27s Gold", tvdb_id := some 279999 }
  else if key = "californias-golden-coast" then
    some { name := "California\x27s Golden Coast", tvdb_id := some 282164 }
  else if key = "californias-golden-fairs" then
    some { name := "California\x27s Golden Fairs", tvdb_id := some 281267 }
  else if key = "californias-golden-parks" then
    some { name := "California\x27s Golden Parks", tvdb_id := some 282166 }
  else if key = "californias-green" then some { name := "California\x27s Green" }
  else if key = "californias-water" then some { name := "California\x27s Water" }
  else if key = "crossroads" then some { name := "Crossroads" }
  else if key = "downtown" then some { name := "Downtown" }
  else if key = "our-neighborhoods" then some { name := "Our Neighborhoods" }
  else if key = "palm-springs-week" then some { name := "Palm Springs Week" }
  else if key = "road-trip" then some { name := "Road Trip" }
  else if key = "specials" then some { name := "Specials" }
  else if key = "the-bench" then some { name := "The Bench" }
  else if key = "visiting" then some { name := "Visiting" }
  else none

/-- The category feed URL template (`categoryFeedUrl`). -/
def categoryFeedUrl (showName : String) : String :=
  "https://blogs.chapman.edu/huell-howser-archives/category/" ++ showName ++ "/feed/atom/"

/-- One page of the category feed (`feedPageUrl`). -/
def feedPageUrl (feedUrl : String) (pageNumber : Nat) : String :=
  feedUrl ++ "?paged=" ++ toString pageNumber

/-- HEAD-probe the URL for its byte size (`getFileSize`): the parsed
content-length header, or 0 when the header is absent, paired with the
number of network requests made (always one). -/
def getFileSize (env : Env) (url : String) : JSNum × Nat :=
  match env.contentLength url with
  | none => (.int 0, 1)
  | some v => (jsParseInt v, 1)

/-- Decidable substring test on character lists. -/
def containsSub (pat : List Char) : List Char → Bool
  | [] => pat.isEmpty
  | c :: r => pat.isPrefixOf (c :: r) || containsSub pat r

/-- The literal up to and including the opening brace of the capture group
of the `jwConfig` regex. -/
def jwMarkerOpen : List Char := ("var jwConfig = \x7b").data

/-- The closing brace of the capture group together with the literal that
must follow it. -/
def jwMarkerClose : List Char := ("\x7d; // end config").data

/-- Index of the last occurrence of `pat` in `hay`: the position the greedy
middle of the capture group backtracks to. -/
def lastOccurrence (pat hay : List Char) : Option Nat :=
  (List.range (hay.length + 1)).reverse.find? (fun i => pat.isPrefixOf (hay.drop i))

/-- The capture of the first match of the `jwConfig` regex in the script
content, or `none` when the regex does not match anywhere. -/
def jwCapture : List Char → Option (List Char)
  | [] => none
  | c :: r =>
    if jwMarkerOpen.isPrefixOf (c :: r) then
      match lastOccurrence jwMarkerClose ((c :: r).drop jwMarkerOpen.length) with
      | some j =>
        some (Char.ofNat 123 :: ((c :: r).drop jwMarkerOpen.length).take j ++ [Char.ofNat 125])
      | none => jwCapture r
    else jwCapture r

/-- Parse the JW Player config out of the script content (`getJWConfig`).
When the regex does not match, `configMatch` is null and `configMatch[1]`
raises a `TypeError`; otherwise the capture goes to `JSON.parse`, modelled
by the environment-supplied `parse`. -/
def getJWConfig (parse : String → Except JSError JWConfig) (content : String) :
    Except JSError JWConfig :=
  match jwCapture content.data with
  | none => .error (.typeError ("Cannot read properties of null (reading 1)"))
  | some cap => parse (String.mk cap)

/-- The source-scan loop of `getVideosFromJWPlayer` over the already
reversed source list: `hls` entries are skipped; any other entry is
size-probed; a 720-wide entry fills the HD slot and the scan continues; a
480-wide entry fills the SD slot and breaks. Returns the final `videos`
object and the number of size-probe requests. -/
def jwScan (env : Env) (videos : Videos) : List JWSource → Videos × Nat
  | [] => (videos, 0)
  | s :: rest =>
    if s.type = "hls" then jwScan env videos rest
    else
      let src := "https:" ++ s.file
      let probed := getFileSize env src
      let video : Video :=
        { src := src, label := if s.width = 720 then "HD" else "SD", size := probed.1 }
      if s.width = 720 then
        let tail := jwScan env { videos with HD := some video } rest
        (tail.1, probed.2 + tail.2)
      else if s.width = 480 then
        ({ videos with SD := some video }, probed.2)
      else
        let tail := jwScan env videos rest
        (tail.1, probed.2 + tail.2)

/-- Crawl video URLs from the JW Player script (`getVideosFromJWPlayer`):
fetch the script, extract its config, reject an absent or falsy playlist,
then scan the first entry's reversed sources. Returns the thrown value or
the page, and the request count. -/
def getVideosFromJWPlayer (env : Env) (title pageUrl sourceUrl : String) :
    Except JSError Page × Nat :=
  let content := env.scriptContent sourceUrl
  match getJWConfig env.jsonParse content with
  | .error e => (.error e, 1)
  | .ok config =>
    match config.playlist with
    | none => (.error (.thrown ("No playlist found!")), 1)
    | some none => (.error (.thrown ("Playlist empty!")), 1)
    | some (some []) =>
      (.error (.typeError ("Cannot read properties of undefined (reading sources)")), 1)
    | some (some (entry :: _)) =>
      let scanned := jwScan env {} entry.sources.reverse
      (.ok { pageUrl := pageUrl, sourceUrl := sourceUrl, title := title,
             videos := scanned.1 },
       1 + scanned.2)

/-- Write a video into the quality slot named by the string key. -/
def setQuality (videos : Videos) (quality : String) (v : Video) : Videos :=
  if quality = "HD" then { videos with HD := some v }
  else if quality = "SD" then { videos with SD := some v }
  else videos

/-- Read the quality slot named by the string key. -/
def getQuality (videos : Videos) (quality : String) : Option Video :=
  if quality = "HD" then videos.HD
  else if quality = "SD" then videos.SD
  else none

/-- Pick the videos of one quality out of the scraped attributes
(`getIframeVideosOfQuality`): more than one is ambiguous, exactly one is
size-probed and stored, none leaves the slot empty. -/
def getIframeVideosOfQuality (env : Env) (videoAttributes : List SourceAttr)
    (sourceUrl : String) (videos : Videos) (quality : String) :
    Except JSError (Videos × Nat) :=
  let videosOfQuality := videoAttributes.filter (fun v => v.label == quality)
  if videosOfQuality.length > 1 then
    .error (.thrown ("More than one " ++ quality ++ " video found: " ++ sourceUrl))
  else
    match videosOfQuality with
    | [v] =>
      let probed := getFileSize env v.src
      .ok (setQuality videos quality { src := v.src, label := v.label, size := probed.1 },
           probed.2)
    | _ => .ok (videos, 0)

/-- Get videos from the iframe document (`getVideosFromIframe`): scrape the
`video > source` attributes and the first `video > track` subtitle, then
fill the SD and the HD slot in that order. -/
def getVideosFromIframe (env : Env) (title pageUrl sourceUrl : String) :
    Except JSError Page × Nat :=
  let idoc := env.iframeDoc sourceUrl
  let videoAttributes := idoc.videoSources
  let subtitles := idoc.videoTracks
  match getIframeVideosOfQuality env videoAttributes sourceUrl {} ("SD") with
  | .error e => (.error e, 1)
  | .ok (v1, n1) =>
    match getIframeVideosOfQuality env videoAttributes sourceUrl v1 ("HD") with
    | .error e => (.error e, 1 + n1)
    | .ok (v2, n2) =>
      (.ok { pageUrl := pageUrl, sourceUrl := sourceUrl, title := title,
             videos := v2, subtitles := subtitles.head? },
       1 + n1 + n2)

/-- Find videos on the page (`getPageVideos`): a pages-cache hit
short-circuits everything; otherwise fetch the page and dispatch on the
vhost-iframe selector first and the JW-Player script selector second.
Returns the result, the updated cache and the request count. -/
def getPageVideos (env : Env) (cache : Cache) (pageUrl : String) :
    Except JSError Page × Cache × Nat :=
  match alGet cache.pages pageUrl with
  | some page => (.ok page, cache, 0)
  | none =>
    let doc := env.pageDoc pageUrl
    let title := doc.title
    let iframes := doc.iframeSrcs.filter (fun s => jsStartsWith s ("https://vhost"))
    match iframes with
    | [iframeUrl] =>
      match getVideosFromIframe env title pageUrl iframeUrl with
      | (.ok page, n) =>
        (.ok page, { cache with pages := alPut cache.pages pageUrl page }, 1 + n)
      | (.error e, n) => (.error e, cache, 1 + n)
    | _ :: _ :: _ =>
      (.error (.thrown ("Found more than one matching iframe: " ++ pageUrl)), cache, 1)
    | [] =>
      let jwVideos := doc.scriptSrcs.filter
        (fun s => jsStartsWith s ("//content.jwplatform.com/players/"))
      match jwVideos with
      | [jwSrc] =>
        match getVideosFromJWPlayer env title pageUrl ("https:" ++ jwSrc) with
        | (.ok page, n) =>
          (.ok page, { cache with pages := alPut cache.pages pageUrl page }, 1 + n)
        | (.error e, n) => (.error e, cache, 1 + n)
      | _ :: _ :: _ =>
        (.error (.thrown ("Found more than one JW Player <video> tag! " ++ pageUrl)),
         cache, 1)
      | [] =>
        (.error (.thrown ("Couldn\x27t find a JW Player <video> tag! " ++ pageUrl)),
         cache, 1)

/-- Lazily fetch the episode list for a series id (`getTVDBEpisodes`),
consulting and populating the tvdb namespace of the cache. A cached entry
short-circuits the network call (arrays are always truthy, so any cached
value hits). -/
def getTVDBEpisodes (env : Env) (cache : Cache) (seasonId : Nat) :
    Except JSError (List Episode × Cache) :=
  match alGet cache.tvdb seasonId with
  | some eps => .ok (eps, cache)
  | none =>
    match env.tvdbFetch seasonId with
    | .error e => .error e
    | .ok eps => .ok (eps, { cache with tvdb := alPut cache.tvdb seasonId eps })

/-- Zero-pad a single-digit season or episode number (`episodePadding`). -/
def episodePadding (n : Nat) : String :=
  if n < 10 then "0" ++ toString n else toString n

/-- Truthiness of `e.episodeName`, the filter applied in `renameEpisode`:
null and the empty string are falsy. -/
def epNameTruthy (e : Episode) : Bool :=
  match e.episodeName with
  | some s => s != ""
  | none => false

/-- The episode name of an episode that passed the truthiness filter. -/
def epNameStr (e : Episode) : String := e.episodeName.getD ""

/-- Unify stylistic apostrophes (`.replace` of the right single quotation
mark with the plain apostrophe, globally). -/
def normalizeQuotes (s : String) : String :=
  String.mk (s.data.map (fun c => if c = '’' then apos else c))

/-- First success of `f` over a list of alternatives, in order. -/
def pickFirst {α β : Type} : List α → (α → Option β) → Option β
  | [], _ => none
  | a :: r, f =>
    match f a with
    | some b => some b
    | none => pickFirst r f

/-- Backtracking alternatives of a greedy optional space: with the space
first when one is present. -/
def optSpaceAlts (s : List Char) : List (List Char) :=
  match s with
  | ' ' :: r => [r, s]
  | _ => [s]

/-- Membership in the dash character class of the show-name pattern. -/
def isDashCh (c : Char) : Bool := c = '-' || c = '–' || c = '—'

/-- Match of the optional trailing feed-number group (a space, an opening
parenthesis, one or more digits, a closing parenthesis) at the given
suffix, returning the remainder after the group. -/
def matchEpSuffix (s : List Char) : Option (List Char) :=
  match s with
  | ' ' :: '(' :: r =>
    let ds := r.takeWhile Char.isDigit
    let rest := r.dropWhile Char.isDigit
    if ds = [] then none
    else
      match rest with
      | ')' :: r2 => some r2
      | _ => none
  | _ => none

/-- Match of the show-name pattern (optional space, a dash, optional space,
the show name literally, then the optional feed-number group) starting
exactly at `s`, following the regex backtracking order; returns the number
of characters consumed. -/
def matchPatFrom (showName s : List Char) : Option Nat :=
  pickFirst (optSpaceAlts s) (fun s1 =>
    match s1 with
    | c :: r1 =>
      if isDashCh c then
        pickFirst (optSpaceAlts r1) (fun s2 =>
          if showName.isPrefixOf s2 then
            let s3 := s2.drop showName.length
            let s4 := (matchEpSuffix s3).getD s3
            some (s.length - s4.length)
          else none)
      else none
    | [] => none)

/-- Replace the first (leftmost) match of the show-name pattern with the
empty string, as the non-global `.replace(showNamePattern, '')` does. -/
def replaceShowPat (showName : List Char) : List Char → List Char
  | [] => []
  | c :: r =>
    match matchPatFrom showName (c :: r) with
    | some n => (c :: r).drop n
    | none => c :: replaceShowPat showName r

/-- Normalization of the scraped title in `renameEpisode`: unify stylistic
apostrophes, then strip the dash-separated show-name suffix together with
its optional feed episode number. -/
def normalizeEpisodeName (showName title : String) : String :=
  String.mk (replaceShowPat showName.data (normalizeQuotes title).data)

/-- Characters removed outright by the sanitize-filename library. -/
def illegalFileCh (c : Char) : Bool :=
  c = '/' || c = '?' || c = '<' || c = '>' || c = backsl || c = ':' || c = '*' ||
    c = '|' || c = Char.ofNat 34

/-- Control characters removed by the sanitize-filename library. -/
def controlFileCh (c : Char) : Bool :=
  decide (c.toNat ≤ 31 ∨ (128 ≤ c.toNat ∧ c.toNat ≤ 159))

/-- Remainder after a Windows reserved device name, on lowercased input. -/
def winReservedRoot : List Char → Option (List Char)
  | 'c' :: 'o' :: 'n' :: r => some r
  | 'p' :: 'r' :: 'n' :: r => some r
  | 'a' :: 'u' :: 'x' :: r => some r
  | 'n' :: 'u' :: 'l' :: r => some r
  | 'c' :: 'o' :: 'm' :: d :: r => if d.isDigit then some r else none
  | 'l' :: 'p' :: 't' :: d :: r => if d.isDigit then some r else none
  | _ => none

/-- Whether the whole name matches the Windows reserved-name pattern of the
sanitize-filename library (case-insensitive, optionally followed by an
extension). -/
def isWinReserved (cs : List Char) : Bool :=
  match winReservedRoot (cs.map Char.toLower) with
  | some [] => true
  | some ('.' :: _) => true
  | _ => false

/-- The sanitize-filename library on the strings this program builds:
illegal and control characters are removed, an all-dots or Windows-reserved
name collapses to the empty string, trailing dots and spaces are stripped,
and the result is truncated to 255 units (the library truncates to 255
UTF-8 bytes; the names this program builds are ASCII, where the two
agree). -/
def sanitizeFilename (s : String) : String :=
  let cs := s.data.filter (fun c => !(illegalFileCh c) && !(controlFileCh c))
  let cs := if cs ≠ [] && cs.all (fun c => c = '.') then [] else cs
  let cs := if isWinReserved cs then [] else cs
  let cs := (cs.reverse.dropWhile (fun c => c = '.' || c = ' ')).reverse
  String.mk (cs.take 255)

/-- The tail of `renameEpisode` after the catalog lookup: apply the final
character replacements to the episode title (spaces to dots, apostrophes
removed, ampersands spelled out), sanitize the assembled name and attach
the output directory and extension. -/
def finishRename (outputPath showDotted episodeNumber episodeName : String) : String :=
  let en := replAmpAnd (removeApos (replAllCh ' ' '.' episodeName))
  let fileName := sanitizeFilename (removeApos showDotted ++ episodeNumber ++ en)
  outputPath ++ fileName ++ ".mp4"

/-- Effect of the catalog lookup result on the working title and on the
episode-number token (which otherwise stays the literal dot). -/
def applyMatch (episodeName : String) : Option Episode → String × String
  | some m =>
    (epNameStr m,
     ".S" ++ episodePadding m.airedSeason ++ "E" ++ episodePadding m.airedEpisodeNumber
       ++ ".")
  | none => (episodeName, ".")

/-- The memoized fuzzyset of a show: reuse the stored name list when
present, otherwise build it from the filtered episodes and store it. -/
def fuzzyNames (memo : MemoSt) (key : String) (episodes : List Episode) :
    List String × MemoSt :=
  match alGet memo key with
  | some ns => (ns, memo)
  | none =>
    let ns := episodes.map epNameStr
    (ns, alPut memo key ns)

/-- Spec-side definition, following the spec wording: high-confidence
resolution is an exact name lookup of the top fuzzy candidate against the
catalog episode list. -/
def specExactLookup (episodes : List Episode) (candidate : String) : Option Episode :=
  episodes.find? (fun e => epNameStr e == candidate)

/-- Spec-side definition, following the spec wording: low-confidence
resolution finds a catalog episode whose name the normalized scraped title
is a string prefix of. -/
def specPrefixLookup (episodes : List Episode) (episodeName : String) : Option Episode :=
  episodes.find? (fun e => jsStartsWith (epNameStr e) episodeName)

/-- Resolve the canonical file name of a page (`renameEpisode`). The cache
and the fuzzyset memo are threaded explicitly; the TVDB fetch is awaited
with no surrounding catch, so its rejection propagates. -/
def renameEpisode (env : Env) (cache : Cache) (memo : MemoSt) (page : Page) :
    Except JSError (String × Cache × MemoSt) :=
  match page.show_ with
  | none => .error (.typeError ("Cannot read properties of undefined (reading name)"))
  | some key =>
    match SHOWS key with
    | none => .error (.typeError ("Cannot read properties of undefined (reading name)"))
    | some desc =>
      let showName := desc.name
      let outputPath := "videos/" ++ key ++ "/"
      let episodeName0 := normalizeEpisodeName showName page.title
      let showDotted := replAllCh ' ' '.' showName
      match desc.tvdb_id with
      | none => .ok (finishRename outputPath showDotted "." episodeName0, cache, memo)
      | some id =>
        match getTVDBEpisodes env cache id with
        | .error e => .error e
        | .ok (episodes0, cache1) =>
          let episodes := episodes0.filter epNameTruthy
          let nm := fuzzyNames memo key episodes
          match env.fuzzyGet nm.1 episodeName0 with
          | none =>
            .ok (finishRename outputPath showDotted "." episodeName0, cache1, nm.2)
          | some [] =>
            .error (.typeError ("Cannot read properties of undefined (reading 0)"))
          | some (firstMatch :: _) =>
            let m :=
              if firstMatch.1 < mkRat 7 10 then
                episodes.find? (fun e => jsStartsWith (epNameStr e) episodeName0)
              else
                episodes.find? (fun e => epNameStr e == firstMatch.2)
            let applied := applyMatch episodeName0 m
            .ok (finishRename outputPath showDotted applied.2 applied.1, cache1, nm.2)

/-- Collect all post links from one feed page (`getFeedPageLinks`): an
unknown show key fails on the feed-URL lookup; a feed whose meta title
starts with the not-found marker rejects with the string primitive; a
parser error rejects with the Error object; otherwise the item links
resolve in feed order. -/
def getFeedPageLinks (env : Env) (showName : String) (pageNumber : Nat) :
    Except JSError (List String) :=
  match SHOWS showName with
  | none => .error (.typeError ("Cannot read properties of undefined (reading feedUrl)"))
  | some _ =>
    match env.feed (feedPageUrl (categoryFeedUrl showName) pageNumber) with
    | .parseError msg => .error (.errorObj msg)
    | .meta title links =>
      if jsStartsWith title ("Page not found") then .error (.thrown ("Page not found"))
      else .ok links

/-- The quality selection used throughout: the HD slot when that key is
present, else the SD slot. -/
def bestVideo (videos : Videos) : Option Video :=
  if videos.HD.isSome then videos.HD else videos.SD

/-- Coercion of a possibly-undefined string into a string context, spelled
the way JavaScript string conversion spells undefined. -/
def jsStr (o : Option String) : String := o.getD "undefined"

/-- Truthiness of the optional subtitle URL: undefined and the empty string
are falsy. -/
def subTruthy (o : Option String) : Bool :=
  match o with
  | some s => s != ""
  | none => false

/-- Loop-carried state of `crawlCategory`: the fetched feed page numbers
(the trace of the loop), accumulated pages, the cache, the fuzzyset memo
and the running total size. -/
structure CrawlSt where
  visited : List Nat := []
  videos : List Page := []
  cache : Cache := {}
  memo : MemoSt := []
  totalSize : JSNum := .int 0
deriving Repr, DecidableEq

/-- How the crawl loop ended: the caught not-found rejection (normal end of
feed), any other caught failure, or fuel exhaustion (an artifact of the
fuel-indexed model of the unbounded loop). -/
inductive CrawlExit where
  | endOfFeed
  | failed (e : JSError)
  | fuelOut
deriving Repr, DecidableEq

/-- Process one collected link inside the crawl loop: extract through the
cache, attach the show key (a field assignment that also mutates the object
shared with the cache), resolve the canonical name, and account the best
video's size. A thrown value aborts with the state accumulated so far. -/
def processLink (env : Env) (showName : String) (st : CrawlSt) (link : String) :
    Except (JSError × CrawlSt) CrawlSt :=
  match getPageVideos env st.cache link with
  | (.error e, cache1, _) => .error (e, { st with cache := cache1 })
  | (.ok page, cache1, _) =>
    let page1 := { page with show_ := some showName }
    let cache2 := { cache1 with pages := alPut cache1.pages link page1 }
    match renameEpisode env cache2 st.memo page1 with
    | .error e => .error (e, { st with cache := cache2 })
    | .ok (name, cache3, memo1) =>
      let page2 := { page1 with renamed := some name }
      let cache4 := { cache3 with pages := alPut cache3.pages link page2 }
      match bestVideo page2.videos with
      | none =>
        .error (.typeError ("Cannot read properties of undefined (reading size)"),
                { st with cache := cache4, memo := memo1 })
      | some v =>
        .ok { st with
              cache := cache4, memo := memo1,
              totalSize := jsAdd st.totalSize v.size,
              videos := st.videos ++ [page2] }

/-- Process the links of one feed page in feed order. -/
def processLinks (env : Env) (showName : String) :
    CrawlSt → List String → Except (JSError × CrawlSt) CrawlSt
  | st, [] => .ok st
  | st, link :: rest =>
    match processLink env showName st link with
    | .error e => .error e
    | .ok st1 => processLinks env showName st1 rest

/-- The fuel-indexed unbounded crawl loop: fetch the links of the current
feed page, process them, advance to the next page number. Any rejection is
caught at the loop boundary; the not-found string is the normal end of the
feed, everything else is a reported failure. -/
def crawlLoop (env : Env) (showName : String) :
    Nat → Nat → CrawlSt → CrawlSt × CrawlExit
  | 0, _, st => (st, .fuelOut)
  | fuel + 1, pageNumber, st =>
    let st1 := { st with visited := st.visited ++ [pageNumber] }
    match getFeedPageLinks env showName pageNumber with
    | .error e =>
      (st1, if e = .thrown ("Page not found") then .endOfFeed else .failed e)
    | .ok links =>
      match processLinks env showName st1 links with
      | .error (e, st2) =>
        (st2, if e = .thrown ("Page not found") then .endOfFeed else .failed e)
      | .ok st2 => crawlLoop env showName fuel (pageNumber + 1) st2

/-- Model of `localeCompare` between file names: codepoint-lexicographic
three-way comparison. Real `localeCompare` is locale-sensitive; on the
names this program compares the default collation and codepoint order
agree on every fact the development uses. -/
def lcCompare : List Char → List Char → Int
  | [], [] => 0
  | [], _ :: _ => -1
  | _ :: _, [] => 1
  | a :: as, b :: bs =>
    if a < b then -1 else if b < a then 1 else lcCompare as bs

/-- The sort comparator of `crawlCategory`. -/
def renamedCompare (a b : Page) : Int :=
  lcCompare (jsStr a.renamed).data (jsStr b.renamed).data

/-- Stable insertion of a page into an already sorted list: the page goes
before the first element it does not compare strictly after, preserving the
original order of ties. -/
def insertCmp (cmp : Page → Page → Int) (p : Page) : List Page → List Page
  | [] => [p]
  | q :: r => if cmp p q ≤ 0 then p :: q :: r else q :: insertCmp cmp p r

/-- Stable sort by the comparator. `Array.prototype.sort` is stable, and on
a consistent comparator every stable sort produces the same order, so
insertion sort is a faithful model. -/
def sortCmp (cmp : Page → Page → Int) : List Page → List Page
  | [] => []
  | p :: r => insertCmp cmp p (sortCmp cmp r)

/-- Node `path.basename` on the plain relative paths this program builds:
the part after the last slash. -/
def pathBasename (s : String) : String :=
  String.mk ((s.data.reverse.takeWhile (fun c => c ≠ '/')).reverse)

/-- Characters that do not force quoting in the shell-escape library. -/
def isShellSafe (c : Char) : Bool :=
  c.isAlpha || c.isDigit || c = '_' || c = '/' || c = ':' || c = '=' || c = '-'

/-- Strip leading pairs of apostrophes, the first cleanup pass of the
shell-escape library. -/
def stripLeadQuotePairs : List Char → List Char
  | q1 :: q2 :: r =>
    if q1 = apos ∧ q2 = apos then stripLeadQuotePairs r else q1 :: q2 :: r
  | l => l

/-- Rewrite every backslash-triple-apostrophe run to backslash-apostrophe,
the second cleanup pass of the shell-escape library. -/
def fixQuoteTriples : List Char → List Char
  | b :: q1 :: q2 :: q3 :: r =>
    if b = backsl ∧ q1 = apos ∧ q2 = apos ∧ q3 = apos then
      backsl :: apos :: fixQuoteTriples r
    else b :: fixQuoteTriples (q1 :: q2 :: q3 :: r)
  | l => l

/-- Quote one argument as the shell-escape library does: arguments made of
safe characters pass through, anything else is wrapped in apostrophes with
embedded apostrophes escaped, followed by the two cleanup passes. -/
def shQuote (s : String) : String :=
  if s.data.all isShellSafe then s
  else
    let esc :=
      (s.data.map (fun c => if c = apos then [apos, backsl, apos, apos] else [c])).flatten
    String.mk (fixQuoteTriples (stripLeadQuotePairs (apos :: esc ++ [apos])))

/-- The shell-escape library: escape each argument, join with spaces. -/
def shellEscape (args : List String) : String :=
  String.intercalate " " (args.map shQuote)

/-- Format curl parameters for the best-quality video
(`formatCurlParameters`). A page with no videos at all would raise a
`TypeError` here in the source; such a page never reaches this point
because the crawl loop fails on it first, and the model defaults its
fields. -/
def formatCurlParameters (page : Page) : List String :=
  let video := (bestVideo page.videos).getD { src := "undefined", label := "", size := .nan }
  [video.src, "--create-dirs", "-k", "-o", jsStr page.renamed]

/-- The ffmpeg transcode-and-mux argument list built for a subtitled page. -/
def ffmpegArgumentsFor (page : Page) : List String :=
  let video := (bestVideo page.videos).getD { src := "undefined", label := "", size := .nan }
  ["-hide_banner", "-n",
   "-i", video.src,
   "-fix_sub_duration",
   "-i", jsStr page.subtitles,
   "-map", "0:v",
   "-map", "0:a",
   "-c", "copy",
   "-map", "1",
   "-c:s:0", "mov_text",
   "-metadata:s:s:0", "language=eng",
   "-disposition:s:0", "default",
   "-metadata:s:v:0", "handler=English",
   "-metadata:s:a:0", "handler=English",
   "-metadata:s:s:0", "handler=English",
   jsStr page.renamed]

/-- The two command lines emitted per sorted page: the one-based progress
echo, then either the ffmpeg mux command (subtitled page) or the curl
download command. -/
def pageLines (index total : Nat) (page : Page) : List String :=
  let echoLine :=
    "echo \"[" ++ toString index ++ "/" ++ toString total ++ "]: "
      ++ pathBasename (jsStr page.renamed) ++ "\""
  let cmd :=
    if subTruthy page.subtitles then "ffmpeg " ++ shellEscape (ffmpegArgumentsFor page)
    else "curl " ++ shellEscape (formatCurlParameters page)
  [echoLine, cmd]

/-- The manifest generator at the end of `crawlCategory`: sort the resolved
pages by canonical file name, then emit `set -e` followed by the per-page
command pairs in sorted order. -/
def buildCommands (videos : List Page) : List String :=
  let sorted := sortCmp renamedCompare videos
  "set -e" :: (sorted.enum.map (fun ip => pageLines (ip.1 + 1) sorted.length ip.2)).flatten

/-- Result of a whole `crawlCategory` invocation. -/
structure CrawlResult where
  exit : CrawlExit
  visited : List Nat
  videos : List Page
  cache : Cache
  memo : MemoSt
  totalSize : JSNum
  commands : List String
deriving Repr, DecidableEq

/-- Crawl one category end to end (`crawlCategory`): run the loop from page
number 1, catch its exit, then generate the sorted manifest from whatever
was accumulated (the in-place sort also reorders the accumulated array). -/
def crawlCategory (env : Env) (fuel : Nat) (showName : String) (cache : Cache)
    (memo : MemoSt) : CrawlResult :=
  let start : CrawlSt := { cache := cache, memo := memo }
  let ended := crawlLoop env showName fuel 1 start
  { exit := ended.2,
    visited := ended.1.visited,
    videos := sortCmp renamedCompare ended.1.videos,
    cache := ended.1.cache,
    memo := ended.1.memo,
    totalSize := ended.1.totalSize,
    commands := buildCommands ended.1.videos }

/-! Concrete instantiations used to evaluate the embedding on explicit
inputs. -/

/-- Whether an extraction result is a success. -/
def resultIsOk {α : Type} : Except JSError α → Bool
  | .ok _ => true
  | .error _ => false

/-- The videos object of a successful extraction result. -/
def okVideos : Except JSError Page → Option Videos
  | .ok p => some p.videos
  | .error _ => none

/-- A neutral environment; concrete checks override the fields they
exercise. -/
def baseEnv : Env :=
  { pageDoc := fun _ => { title := "", iframeSrcs := [], scriptSrcs := [] },
    iframeDoc := fun _ => { videoSources := [], videoTracks := [] },
    scriptContent := fun _ => "",
    jsonParse := fun _ => .error (.errorObj ("parse")),
    contentLength := fun _ => none,
    tvdbFetch := fun _ => .error (.errorObj ("down")),
    fuzzyGet := fun _ _ => none,
    feed := fun _ => .parseError ("err") }

/-- Environment whose HEAD probe answers a content-length only at one URL. -/
def envC8 : Env :=
  { baseEnv with contentLength := fun url => if url = "u2" then some ("1234") else none }

/-- A page document carrying both extraction markers at once. -/
def docBoth : Doc :=
  { title := "T",
    iframeSrcs := ["https://vhost.example/v"],
    scriptSrcs := ["//content.jwplatform.com/players/x.js"] }

/-- Environment serving `docBoth` and an iframe document with one SD
source. -/
def envIframe : Env :=
  { baseEnv with
    pageDoc := fun _ => docBoth,
    iframeDoc := fun _ =>
      { videoSources := [{ src := "https://vhost.example/file.mp4", label := "SD" }],
        videoTracks := [] } }

/-- The page `envIframe` extracts. -/
def pageIframeRes : Page :=
  { pageUrl := "p", sourceUrl := "https://vhost.example/v", title := "T",
    videos := { SD := some { src := "https://vhost.example/file.mp4", label := "SD",
                             size := .int 0 } } }

/-- The cache after extracting that page. -/
def cacheIframeRes : Cache := { pages := [("p", pageIframeRes)] }

/-- A 720-wide mp4 source. -/
def srcHD : JWSource := { type := "mp4", file := "//cdn.example/x-720.mp4", width := 720 }

/-- A 480-wide mp4 source. -/
def srcSD : JWSource := { type := "mp4", file := "//cdn.example/x-480.mp4", width := 480 }

/-- A 360-wide mp4 source, lower quality than SD. -/
def srcLow : JWSource := { type := "mp4", file := "//cdn.example/x-360.mp4", width := 360 }

/-- Script content the `jwConfig` regex matches. -/
def jwScriptText : String := "var jwConfig = \x7b\x7d; // end config"

/-- Environment whose player config lists the HD source before the SD
source, so the in-place reverse scans the SD source first. -/
def envJWHdFirst : Env :=
  { baseEnv with
    scriptContent := fun _ => jwScriptText,
    jsonParse := fun _ => .ok { playlist := some (some [{ sources := [srcHD, srcSD] }]) } }

/-- Environment whose player config lists sources in ascending quality with
a lower-than-SD source first. -/
def envJWAscending : Env :=
  { baseEnv with
    scriptContent := fun _ => jwScriptText,
    jsonParse := fun _ =>
      .ok { playlist := some (some [{ sources := [srcLow, srcSD, srcHD] }]) } }

/-- A two-episode catalog on which the exact-name path and the prefix path
resolve to different episodes for the scraped title `Alpha`. -/
def epsC3 : List Episode :=
  [{ episodeName := some "Beta", airedSeason := 1, airedEpisodeNumber := 1 },
   { episodeName := some "Alphabet", airedSeason := 2, airedEpisodeNumber := 5 }]

/-- Cache holding `epsC3` for the California's Gold series id. -/
def cacheC3 : Cache := { tvdb := [(279999, epsC3)] }

/-- A scraped page of that show titled `Alpha`. -/
def pageC3 : Page :=
  { pageUrl := "p", sourceUrl := "s", title := "Alpha", videos := {},
    show_ := some "californias-gold" }

/-- Environment whose fuzzy index scores the top candidate exactly at the
threshold. -/
def envC3hi : Env :=
  { baseEnv with fuzzyGet := fun _ _ => some [(mkRat 7 10, "Beta")] }

/-- Environment whose fuzzy index scores the top candidate just below the
threshold. -/
def envC3lo : Env :=
  { baseEnv with fuzzyGet := fun _ _ => some [(mkRat 6999 10000, "Beta")] }

/-- A page of a show with a catalog id, used against an unreachable
catalog. -/
def pageC4 : Page :=
  { pageUrl := "p", sourceUrl := "s", title := "X", videos := {},
    show_ := some "californias-gold" }

/-- Environment whose catalog fetch succeeds with an empty episode list. -/
def envC4w : Env := { baseEnv with tvdbFetch := fun _ => .ok [] }

/-- The catalog episode for the filename-assembly scenario. -/
def epOldFaithful : Episode :=
  { episodeName := some "Old Faithful", airedSeason := 2, airedEpisodeNumber := 12 }

/-- Cache holding the Old Faithful episode for the California's Gold series
id. -/
def cacheC5 : Cache := { tvdb := [(279999, [epOldFaithful])] }

/-- The scraped page of the filename-assembly scenario. -/
def pageC5 : Page :=
  { pageUrl := "p", sourceUrl := "s",
    title := "Old Faithful – California\x27s Gold (112)", videos := {},
    show_ := some "californias-gold" }

/-- Environment whose fuzzy index matches Old Faithful with full
confidence. -/
def envC5 : Env :=
  { baseEnv with
    fuzzyGet := fun names query =>
      if names = ["Old Faithful"] && query = "Old Faithful" then
        some [((1 : Rat), "Old Faithful")]
      else none }

/-- Feed environment for the downtown category: page 1 is an ordinary feed
page with an empty link list, page 2 answers with the not-found title. -/
def envC6 : Env :=
  { baseEnv with
    feed := fun url =>
      if url = feedPageUrl (categoryFeedUrl ("downtown")) 1 then
        .meta ("Downtown feed") []
      else if url = feedPageUrl (categoryFeedUrl ("downtown")) 2 then
        .meta ("Page not found - blogs.chapman.edu") []
      else .parseError ("unexpected") }

/-- A resolved page whose canonical name begins with the letter A. -/
def pageC7A : Page :=
  { pageUrl := "a", sourceUrl := "a", title := "ta", videos := {},
    renamed := some "Apple.mp4" }

/-- A resolved page whose canonical name begins with the letter B. -/
def pageC7B : Page :=
  { pageUrl := "b", sourceUrl := "b", title := "tb", videos := {},
    renamed := some "Banana.mp4" }

/-- A resolved page whose canonical name begins with the letter C. -/
def pageC7C : Page :=
  { pageUrl := "c", sourceUrl := "c", title := "tc", videos := {},
    renamed := some "Cherry.mp4" }

/-! Shared lemmas. -/

/-- Lookup after an object assignment finds the assigned value. -/
theorem alGet_alPut {κ β : Type} [DecidableEq κ] (l : List (κ × β)) (k : κ) (v : β) :
    alGet (alPut l k v) k = some v := by
  simp [alGet, alPut]

/-- A prefix match inside a dropped suffix is a substring match. -/
theorem containsSub_of_drop (pat : List Char) :
    ∀ (l : List Char) (i : Nat), pat.isPrefixOf (l.drop i) = true →
      containsSub pat l = true := by
  intro l
  induction l with
  | nil =>
    intro i h
    cases pat with
    | nil => rfl
    | cons p ps => simp [List.isPrefixOf] at h
  | cons c r ih =>
    intro i h
    cases i with
    | zero =>
      simp only [List.drop_zero] at h
      simp [containsSub, h]
    | succ m =>
      simp only [List.drop_succ_cons] at h
      simp [containsSub, ih m h]

/-- When the pattern occurs nowhere, the greedy backtracking search finds
no position. -/
theorem lastOccurrence_eq_none (pat l : List Char)
    (h : containsSub pat l = false) : lastOccurrence pat l = none := by
  unfold lastOccurrence
  rw [List.find?_eq_none]
  intro i _ hp
  have hc := containsSub_of_drop pat l i hp
  rw [h] at hc
  simp at hc

/-- Substring absence is preserved by dropping a prefix. -/
theorem containsSub_drop_of_not (pat : List Char) :
    ∀ (l : List Char) (n : Nat), containsSub pat l = false →
      containsSub pat (l.drop n) = false := by
  intro l
  induction l with
  | nil => intro n h; cases n <;> simpa using h
  | cons c r ih =>
    intro n h
    have hr : containsSub pat r = false := by
      have h2 := h
      simp [containsSub] at h2
      exact h2.2
    cases n with
    | zero => simpa using h
    | succ m => simpa using ih m hr

/-- The `jwConfig` regex cannot match content from which either marker is
absent. -/
theorem jwCapture_eq_none :
    ∀ (l : List Char),
      containsSub jwMarkerOpen l = false ∨ containsSub jwMarkerClose l = false →
      jwCapture l = none := by
  intro l
  induction l with
  | nil => intro _; rfl
  | cons c r ih =>
    intro h
    rcases h with h | h
    · have hsplit : jwMarkerOpen.isPrefixOf (c :: r) = false ∧
          containsSub jwMarkerOpen r = false := by
        simpa [containsSub] using h
      unfold jwCapture
      simp only [hsplit.1, Bool.false_eq_true, if_false]
      exact ih (Or.inl hsplit.2)
    · have hr : containsSub jwMarkerClose r = false := by
        have h2 := h
        simp [containsSub] at h2
        exact h2.2
      cases hpre : jwMarkerOpen.isPrefixOf (c :: r) with
      | false =>
        unfold jwCapture
        simp only [hpre, Bool.false_eq_true, if_false]
        exact ih (Or.inr hr)
      | true =>
        have hdrop := containsSub_drop_of_not jwMarkerClose (c :: r)
          jwMarkerOpen.length h
        have hlast := lastOccurrence_eq_none _ _ hdrop
        unfold jwCapture
        simp only [hpre, if_true, hlast]
        exact ih (Or.inr hr)

/-! Claim C10. -/

/-- C10: `getJWConfig` is not total over arbitrary script content: on any
content from which either fixed marker of the `var jwConfig` pattern is
absent, the regex match is null, indexing the match raises a runtime
`TypeError`, and the resulting failure is not any thrown taxonomy error. -/
theorem getJWConfig_missing_marker_type_error
    (parse : String → Except JSError JWConfig) (content : String)
    (h : containsSub jwMarkerOpen content.data = false ∨
      containsSub jwMarkerClose content.data = false) :
    getJWConfig parse content =
        .error (.typeError ("Cannot read properties of null (reading 1)")) ∧
      ∀ msg, getJWConfig parse content ≠ .error (.thrown msg) := by
  have hc := jwCapture_eq_none content.data h
  constructor
  · unfold getJWConfig
    rw [hc]
  · intro msg
    unfold getJWConfig
    rw [hc]
    simp

/-- Witness for C10 at the content `hello`, which contains neither marker. -/
theorem getJWConfig_missing_marker_type_error_witness :
    containsSub jwMarkerOpen ("hello").data = false ∧
      getJWConfig baseEnv.jsonParse ("hello") =
        .error (.typeError ("Cannot read properties of null (reading 1)")) := by
  refine ⟨by decide, ?_⟩
  exact (getJWConfig_missing_marker_type_error baseEnv.jsonParse ("hello")
    (Or.inl (by decide))).1

/-! Claim C8. -/

/-- C8: for every URL the byte-size probe issues one HEAD request and
returns 0 when the response carries no content-length header, and the
parsed integer value of the header when it is present; a missing header is
never an error. -/
theorem getFileSize_contentLength (env : Env) (url : String) :
    (env.contentLength url = none → getFileSize env url = (.int 0, 1)) ∧
      ∀ v, env.contentLength url = some v → getFileSize env url = (jsParseInt v, 1) := by
  constructor
  · intro h
    unfold getFileSize
    rw [h]
  · intro v h
    unfold getFileSize
    rw [h]

/-- Witness for C8 at a URL without and a URL with a content-length
header. -/
theorem getFileSize_contentLength_witness :
    getFileSize envC8 ("u1") = (.int 0, 1) ∧ getFileSize envC8 ("u2") = (.int 1234, 1) := by
  constructor
  · exact (getFileSize_contentLength envC8 ("u1")).1 (by decide)
  · exact ((getFileSize_contentLength envC8 ("u2")).2 ("1234") (by decide)).trans (by decide)

/-! Claim C5. -/

/-- C5: for the show California's Gold, the scraped title carrying the
dash-separated show suffix and feed number, and the catalog match Old
Faithful at season 2 episode 12, the resolver produces
`videos/californias-gold/Californias.Gold.S02E12.Old.Faithful.mp4`: the
suffix is stripped, apostrophes are removed, spaces become dots, and the
single-digit season number is left-padded to two digits. -/
theorem renameEpisode_old_faithful :
    renameEpisode envC5 cacheC5 [] pageC5 =
      .ok ("videos/californias-gold/Californias.Gold.S02E12.Old.Faithful.mp4",
           cacheC5, [("californias-gold", ["Old Faithful"])]) := by
  decide

/-! Claim C9. -/

/-- Successful extraction leaves the returned page stored in the cache
under its URL. -/
theorem getPageVideos_ok_cached (env : Env) (cache : Cache) (url : String)
    (page : Page) (cache1 : Cache) (n : Nat)
    (h : getPageVideos env cache url = (.ok page, cache1, n)) :
    alGet cache1.pages url = some page := by
  unfold getPageVideos at h
  dsimp only at h
  split at h
  · rename_i p heq
    simp only [Prod.mk.injEq, Except.ok.injEq] at h
    obtain ⟨h1, h2, _⟩ := h
    rw [← h2, heq, h1]
  · split at h
    · split at h
      · simp only [Prod.mk.injEq, Except.ok.injEq] at h
        obtain ⟨h1, h2, _⟩ := h
        rw [← h2, ← h1]
        exact alGet_alPut _ _ _
      · simp at h
    · simp at h
    · split at h
      · split at h
        · simp only [Prod.mk.injEq, Except.ok.injEq] at h
          obtain ⟨h1, h2, _⟩ := h
          rw [← h2, ← h1]
          exact alGet_alPut _ _ _
        · simp at h
      · simp at h
      · simp at h

/-- C9: resolving the same page URL twice is idempotent: the second call
returns the identical resolved page stored by the first call, leaves the
cache unchanged, and performs zero network requests. -/
theorem getPageVideos_idempotent (env : Env) (cache : Cache) (url : String)
    (page : Page) (cache1 : Cache) (n : Nat)
    (h : getPageVideos env cache url = (.ok page, cache1, n)) :
    getPageVideos env cache1 url = (.ok page, cache1, 0) := by
  have hcached := getPageVideos_ok_cached env cache url page cache1 n h
  unfold getPageVideos
  rw [hcached]

/-- Witness for C9: the iframe environment resolves the page with three
requests on the first call, and the second call is the cache hit. -/
theorem getPageVideos_idempotent_witness :
    getPageVideos envIframe cacheIframeRes ("p") = (.ok pageIframeRes, cacheIframeRes, 0) :=
  getPageVideos_idempotent envIframe {} ("p") pageIframeRes cacheIframeRes 3 (by decide)

/-! Claim C1. -/

/-- C1 counterexample: a document carrying both markers at once (exactly
one vhost iframe and exactly one JW-Player script tag) does not make
extraction fail; the iframe strategy is preferred and succeeds. -/
theorem getPageVideos_both_markers_ok :
    ((envIframe.pageDoc ("p")).iframeSrcs.filter
        (fun s => jsStartsWith s ("https://vhost"))).length = 1 ∧
      ((envIframe.pageDoc ("p")).scriptSrcs.filter
        (fun s => jsStartsWith s ("//content.jwplatform.com/players/"))).length = 1 ∧
      resultIsOk (getPageVideos envIframe {} ("p")).1 = true := by
  decide

/-- C1 amended: extraction fails with the no-video taxonomy error when
neither marker is present, and in every failure case of the extractor the
pages cache is left untouched; a document carrying both markers instead
takes the iframe strategy. -/
theorem getPageVideos_neither_marker_fails :
    (∀ (env : Env) (cache : Cache) (url : String),
        alGet cache.pages url = none →
        (env.pageDoc url).iframeSrcs.filter (fun s => jsStartsWith s ("https://vhost")) = [] →
        (env.pageDoc url).scriptSrcs.filter
            (fun s => jsStartsWith s ("//content.jwplatform.com/players/")) = [] →
        getPageVideos env cache url =
          (.error (.thrown ("Couldn\x27t find a JW Player <video> tag! " ++ url)),
           cache, 1)) ∧
      ∀ (env : Env) (cache : Cache) (url : String) (e : JSError) (cache1 : Cache) (n : Nat),
        getPageVideos env cache url = (.error e, cache1, n) → cache1 = cache := by
  constructor
  · intro env cache url hmiss hif hjw
    simp [getPageVideos, hmiss, hif, hjw]
  · intro env cache url e cache1 n h
    unfold getPageVideos at h
    dsimp only at h
    split at h
    · simp at h
    · split at h
      · split at h
        · simp at h
        · simp only [Prod.mk.injEq] at h
          exact h.2.1.symm
      · simp only [Prod.mk.injEq] at h
        exact h.2.1.symm
      · split at h
        · split at h
          · simp at h
          · simp only [Prod.mk.injEq] at h
            exact h.2.1.symm
        · simp only [Prod.mk.injEq] at h
          exact h.2.1.symm
        · simp only [Prod.mk.injEq] at h
          exact h.2.1.symm

/-- Witness for C1 at a markerless document: the neutral environment yields
the no-video error and an untouched cache after one page fetch. -/
theorem getPageVideos_neither_marker_fails_witness :
    getPageVideos baseEnv {} ("nope") =
      (.error (.thrown ("Couldn\x27t find a JW Player <video> tag! nope")), {}, 1) :=
  (getPageVideos_neither_marker_fails.1 baseEnv {} ("nope") rfl rfl rfl).trans (by decide)

/-! Claim C2. -/

/-- The scan breaks at the first non-hls 480-wide source: everything after
it in the list is never inspected, never probed, and cannot change the
result. -/
theorem jwScan_stops_at_480 (env : Env) :
    ∀ (l1 : List JWSource) (s : JWSource) (l2 : List JWSource) (v : Videos),
      (∀ t ∈ l1, t.type ≠ "hls" → t.width ≠ 480) →
      s.type ≠ "hls" → s.width = 480 →
      jwScan env v (l1 ++ s :: l2) = jwScan env v (l1 ++ [s]) := by
  intro l1
  induction l1 with
  | nil =>
    intro s l2 v _ hs hw
    simp [jwScan, hs, hw]
  | cons t l1 ih =>
    intro s l2 v hno hs hw
    have hno1 : ∀ u ∈ l1, u.type ≠ "hls" → u.width ≠ 480 :=
      fun u hu => hno u (List.mem_cons_of_mem _ hu)
    by_cases ht : t.type = "hls"
    · simp only [List.cons_append, jwScan, ht, if_true]
      exact ih s l2 v hno1 hs hw
    · by_cases h720 : t.width = 720
      · simp only [List.cons_append, jwScan, ht, h720, if_false, if_true,
          List.append_eq]
        rw [ih s l2 _ hno1 hs hw]
      · have h480 : t.width ≠ 480 := hno t (List.mem_cons_self _ _) ht
        simp only [List.cons_append, jwScan, ht, h720, h480, if_false, List.append_eq]
        rw [ih s l2 v hno1 hs hw]

/-- The HD slot, once filled, survives the rest of the scan. -/
theorem jwScan_HD_persists (env : Env) :
    ∀ (l : List JWSource) (v : Videos), v.HD.isSome = true →
      ((jwScan env v l).1).HD.isSome = true := by
  intro l
  induction l with
  | nil => intro v hv; simpa [jwScan] using hv
  | cons t l ih =>
    intro v hv
    by_cases ht : t.type = "hls"
    · simpa [jwScan, ht] using ih v hv
    · by_cases h720 : t.width = 720
      · simp only [jwScan, ht, h720, if_false, if_true]
        exact ih _ (by simp)
      · by_cases h480 : t.width = 480
        · simp only [jwScan, ht, h720, h480, if_false, if_true]
          exact hv
        · simp only [jwScan, ht, h720, h480, if_false]
          exact ih v hv

/-- A non-hls 720-wide source among sources that are all hls or not
480-wide guarantees a filled HD slot, whatever follows them. -/
theorem jwScan_HD_of_720 (env : Env) :
    ∀ (l1 rest : List JWSource) (v : Videos),
      (∀ t ∈ l1, t.type ≠ "hls" → t.width ≠ 480) →
      (∃ t ∈ l1, t.type ≠ "hls" ∧ t.width = 720) →
      ((jwScan env v (l1 ++ rest)).1).HD.isSome = true := by
  intro l1
  induction l1 with
  | nil =>
    intro rest v _ hex
    simp at hex
  | cons t l1 ih =>
    intro rest v hno hex
    have hno1 : ∀ u ∈ l1, u.type ≠ "hls" → u.width ≠ 480 :=
      fun u hu => hno u (List.mem_cons_of_mem _ hu)
    by_cases ht : t.type = "hls"
    · have hex1 : ∃ u ∈ l1, u.type ≠ "hls" ∧ u.width = 720 := by
        rcases hex with ⟨u, hu, hok⟩
        rcases List.mem_cons.mp hu with rfl | hu1
        · exact absurd ht hok.1
        · exact ⟨u, hu1, hok⟩
      simp only [List.cons_append, jwScan, ht, if_true]
      exact ih rest v hno1 hex1
    · by_cases h720 : t.width = 720
      · simp only [List.cons_append, jwScan, ht, h720, if_false, if_true]
        exact jwScan_HD_persists env _ _ (by simp)
      · have h480 : t.width ≠ 480 := hno t (List.mem_cons_self _ _) ht
        have hex1 : ∃ u ∈ l1, u.type ≠ "hls" ∧ u.width = 720 := by
          rcases hex with ⟨u, hu, hok⟩
          rcases List.mem_cons.mp hu with rfl | hu1
          · exact absurd hok.2 h720
          · exact ⟨u, hu1, hok⟩
        simp only [List.cons_append, jwScan, ht, h720, h480, if_false]
        exact ih rest v hno1 hex1

/-- Scanning a block that ends at its only non-hls 480-wide source fills
the SD slot with precisely that source. -/
theorem jwScan_SD_final (env : Env) :
    ∀ (l1 : List JWSource) (s : JWSource) (v : Videos),
      (∀ t ∈ l1, t.type ≠ "hls" → t.width ≠ 480) →
      s.type ≠ "hls" → s.width = 480 →
      ((jwScan env v (l1 ++ [s])).1).SD =
        some { src := "https:" ++ s.file, label := "SD",
               size := (getFileSize env ("https:" ++ s.file)).1 } := by
  intro l1
  induction l1 with
  | nil =>
    intro s v _ hs hw
    simp [jwScan, hs, hw]
  | cons t l1 ih =>
    intro s v hno hs hw
    have hno1 : ∀ u ∈ l1, u.type ≠ "hls" → u.width ≠ 480 :=
      fun u hu => hno u (List.mem_cons_of_mem _ hu)
    by_cases ht : t.type = "hls"
    · simp only [List.cons_append, jwScan, ht, if_true]
      exact ih s v hno1 hs hw
    · by_cases h720 : t.width = 720
      · simp only [List.cons_append, jwScan, ht, h720, if_false, if_true]
        exact ih s _ hno1 hs hw
      · have h480 : t.width ≠ 480 := hno t (List.mem_cons_self _ _) ht
        simp only [List.cons_append, jwScan, ht, h720, h480, if_false]
        exact ih s v hno1 hs hw

/-- C2 amended: when the reversed source list reaches a non-hls 480-wide
source only after sources that are hls or not 480-wide, among them a
non-hls 720-wide source, the extractor succeeds with both the HD and the
SD descriptor filled; the scan stops at that 480-wide source, so the part
of the list after it contributes nothing to the result or to the request
count. (As the counterexample shows, the mere presence of both widths does
not fill both slots: a 720-wide source occurring after the first non-hls
480-wide one in reversed order is never inspected.) -/
theorem getVideosFromJWPlayer_scan (env : Env) (title pageUrl sourceUrl : String)
    (config : JWConfig) (entry : JWEntry) (entries : List JWEntry)
    (l1 l2 : List JWSource) (s : JWSource)
    (hparse : getJWConfig env.jsonParse (env.scriptContent sourceUrl) = .ok config)
    (hpl : config.playlist = some (some (entry :: entries)))
    (hrev : entry.sources.reverse = l1 ++ s :: l2)
    (hno : ∀ t ∈ l1, t.type ≠ "hls" → t.width ≠ 480)
    (hs : s.type ≠ "hls") (hw : s.width = 480)
    (h720 : ∃ t ∈ l1, t.type ≠ "hls" ∧ t.width = 720) :
    jwScan env {} (l1 ++ s :: l2) = jwScan env {} (l1 ++ [s]) ∧
      getVideosFromJWPlayer env title pageUrl sourceUrl =
        (.ok { pageUrl := pageUrl, sourceUrl := sourceUrl, title := title,
               videos := (jwScan env {} (l1 ++ [s])).1 },
         1 + (jwScan env {} (l1 ++ [s])).2) ∧
      ((jwScan env {} (l1 ++ [s])).1).HD.isSome = true ∧
      ((jwScan env {} (l1 ++ [s])).1).SD.isSome = true := by
  have htr := jwScan_stops_at_480 env l1 s l2 {} hno hs hw
  refine ⟨htr, ?_, ?_, ?_⟩
  · unfold getVideosFromJWPlayer
    dsimp only
    rw [hparse]
    dsimp only
    rw [hpl]
    dsimp only
    rw [hrev, htr]
  · exact jwScan_HD_of_720 env l1 [s] {} hno h720
  · rw [jwScan_SD_final env l1 s {} hno hs hw]
    rfl

/-- Witness for C2: ascending-quality sources reversed to HD, SD, low; the
extractor fills both slots with three requests in total, the low-quality
tail never being probed. -/
theorem getVideosFromJWPlayer_scan_witness :
    getVideosFromJWPlayer envJWAscending ("t") ("p") ("src") =
      (.ok { pageUrl := "p", sourceUrl := "src", title := "t",
             videos := { HD := some { src := "https://cdn.example/x-720.mp4",
                                      label := "HD", size := .int 0 },
                         SD := some { src := "https://cdn.example/x-480.mp4",
                                      label := "SD", size := .int 0 } } },
       3) :=
  ((getVideosFromJWPlayer_scan envJWAscending ("t") ("p") ("src")
      { playlist := some (some [{ sources := [srcLow, srcSD, srcHD] }]) }
      { sources := [srcLow, srcSD, srcHD] } [] [srcHD] [srcLow] srcSD
      (by decide) rfl (by decide) (by decide) (by decide) rfl
      (by decide)).2.1).trans (by decide)

/-- C2 counterexample: a playlist whose source list contains both a non-hls
720-wide and a non-hls 480-wide source, but listed highest quality first,
loses the HD descriptor: the in-place reverse puts the 480-wide source
first and the scan breaks on it before ever reaching the 720-wide one. -/
theorem getVideosFromJWPlayer_hd_first_misses_hd :
    (∃ t ∈ [srcHD, srcSD], t.type ≠ "hls" ∧ t.width = 720) ∧
      (∃ t ∈ [srcHD, srcSD], t.type ≠ "hls" ∧ t.width = 480) ∧
      okVideos (getVideosFromJWPlayer envJWHdFirst ("t") ("p") ("src")).1 =
        some { HD := none,
               SD := some { src := "https://cdn.example/x-480.mp4", label := "SD",
                            size := .int 0 } } := by
  decide

/-! Claim C3. -/

/-- C3: whenever the fuzzy index returns a ranked candidate list, a top
score at or above the 0.7 threshold resolves through the exact-name lookup
of the top candidate against the catalog list, and a top score strictly
below the threshold resolves through the prefix fallback on the normalized
scraped title. -/
theorem renameEpisode_threshold (env : Env) (cache : Cache) (memo : MemoSt)
    (page : Page) (key : String) (desc : ShowDesc) (seriesId : Nat)
    (episodes0 : List Episode) (q : Rat) (cand : String) (rest : List (Rat × String))
    (hkey : page.show_ = some key) (hdesc : SHOWS key = some desc)
    (hid : desc.tvdb_id = some seriesId)
    (hcache : alGet cache.tvdb seriesId = some episodes0)
    (hfuzzy : env.fuzzyGet (fuzzyNames memo key (episodes0.filter epNameTruthy)).1
        (normalizeEpisodeName desc.name page.title) = some ((q, cand) :: rest)) :
    renameEpisode env cache memo page =
      .ok (finishRename ("videos/" ++ key ++ "/") (replAllCh ' ' '.' desc.name)
             (applyMatch (normalizeEpisodeName desc.name page.title)
                (if q < mkRat 7 10 then
                  specPrefixLookup (episodes0.filter epNameTruthy)
                    (normalizeEpisodeName desc.name page.title)
                else
                  specExactLookup (episodes0.filter epNameTruthy) cand)).2
             (applyMatch (normalizeEpisodeName desc.name page.title)
                (if q < mkRat 7 10 then
                  specPrefixLookup (episodes0.filter epNameTruthy)
                    (normalizeEpisodeName desc.name page.title)
                else
                  specExactLookup (episodes0.filter epNameTruthy) cand)).1,
           cache, (fuzzyNames memo key (episodes0.filter epNameTruthy)).2) := by
  simp only [renameEpisode, getTVDBEpisodes, hkey, hdesc, hid, hcache, hfuzzy,
    specPrefixLookup, specExactLookup]

/-- Witness for C3: a boundary score of exactly 7/10 takes the exact-name
path and resolves to Beta at S01E01, while 6999/10000 takes the prefix
path and resolves to Alphabet at S02E05, on the same catalog and title. -/
theorem renameEpisode_threshold_witness :
    renameEpisode envC3hi cacheC3 [] pageC3 =
      .ok ("videos/californias-gold/Californias.Gold.S01E01.Beta.mp4", cacheC3,
           [("californias-gold", ["Beta", "Alphabet"])]) ∧
      renameEpisode envC3lo cacheC3 [] pageC3 =
        .ok ("videos/californias-gold/Californias.Gold.S02E05.Alphabet.mp4", cacheC3,
             [("californias-gold", ["Beta", "Alphabet"])]) := by
  constructor
  · exact (renameEpisode_threshold envC3hi cacheC3 [] pageC3 ("californias-gold")
      { name := "California\x27s Gold", tvdb_id := some 279999 } 279999 epsC3
      (mkRat 7 10) ("Beta") [] rfl (by decide) rfl (by decide) (by decide)).trans
      (by decide)
  · exact (renameEpisode_threshold envC3lo cacheC3 [] pageC3 ("californias-gold")
      { name := "California\x27s Gold", tvdb_id := some 279999 } 279999 epsC3
      (mkRat 6999 10000) ("Beta") [] rfl (by decide) rfl (by decide) (by decide)).trans
      (by decide)

/-! Claim C4. -/

/-- C4 counterexample: with the catalog unreachable and the episode list
not cached, the resolver propagates the rejection out instead of degrading
to a title-only name. -/
theorem renameEpisode_catalog_down_fails :
    renameEpisode baseEnv {} [] pageC4 = .error (.errorObj ("down")) := by
  decide

/-- C4 amended: the resolver never fails provided the show key is known
and, when the show carries a catalog id, the episode list is cached or the
catalog fetch succeeds (and the fuzzy index never returns an empty ranked
list, which the fuzzyset library never does); lookup misses degrade to a
best-effort name, and a show without a catalog id resolves to the
title-only name with the literal dot placeholder. Catalog unavailability,
however, escapes the resolver. -/
theorem renameEpisode_total_when_catalog_available (env : Env) (cache : Cache)
    (memo : MemoSt) (page : Page) (key : String) (desc : ShowDesc)
    (hkey : page.show_ = some key) (hdesc : SHOWS key = some desc)
    (hcat : ∀ seriesId, desc.tvdb_id = some seriesId →
      (alGet cache.tvdb seriesId).isSome = true ∨
        ∃ eps, env.tvdbFetch seriesId = .ok eps)
    (hfz : ∀ names query, env.fuzzyGet names query ≠ some []) :
    resultIsOk (renameEpisode env cache memo page) = true ∧
      (desc.tvdb_id = none →
        renameEpisode env cache memo page =
          .ok (finishRename ("videos/" ++ key ++ "/") (replAllCh ' ' '.' desc.name)
                 (".") (normalizeEpisodeName desc.name page.title), cache, memo)) := by
  cases hid : desc.tvdb_id with
  | none =>
    constructor
    · simp only [renameEpisode, hkey, hdesc, hid, resultIsOk]
    · intro _
      simp only [renameEpisode, hkey, hdesc, hid]
  | some seriesId =>
    refine ⟨?_, fun h => Option.noConfusion h⟩
    cases halg : alGet cache.tvdb seriesId with
    | some eps =>
      cases hfg : env.fuzzyGet (fuzzyNames memo key (eps.filter epNameTruthy)).1
          (normalizeEpisodeName desc.name page.title) with
      | none =>
        simp only [renameEpisode, getTVDBEpisodes, hkey, hdesc, hid, halg, hfg,
          resultIsOk]
      | some l =>
        cases l with
        | nil => exact absurd hfg (hfz _ _)
        | cons f r =>
          simp only [renameEpisode, getTVDBEpisodes, hkey, hdesc, hid, halg, hfg,
            resultIsOk]
    | none =>
      rcases hcat seriesId hid with hc | ⟨eps, hfetch⟩
      · rw [halg] at hc
        simp at hc
      · cases hfg : env.fuzzyGet (fuzzyNames memo key (eps.filter epNameTruthy)).1
            (normalizeEpisodeName desc.name page.title) with
        | none =>
          simp only [renameEpisode, getTVDBEpisodes, hkey, hdesc, hid, halg, hfetch,
            hfg, resultIsOk]
        | some l =>
          cases l with
          | nil => exact absurd hfg (hfz _ _)
          | cons f r =>
            simp only [renameEpisode, getTVDBEpisodes, hkey, hdesc, hid, halg, hfetch,
              hfg, resultIsOk]

/-- Witness for C4: with the catalog reachable (an empty episode list), the
resolver of the same page that failed in the counterexample returns a
best-effort name. -/
theorem renameEpisode_total_when_catalog_available_witness :
    resultIsOk (renameEpisode envC4w {} [] pageC4) = true :=
  (renameEpisode_total_when_catalog_available envC4w {} [] pageC4
    ("californias-gold") { name := "California\x27s Gold", tvdb_id := some 279999 }
    rfl (by decide)
    (fun seriesId _ => Or.inr ⟨[], rfl⟩)
    (fun _ _ h => Option.noConfusion h)).1

/-! Claim C6. -/

/-- The crawl loop walks consecutive page numbers across empty feed pages
and exits normally at the first page whose feed title carries the
not-found marker, fetching nothing beyond it. -/
theorem crawlLoop_stops_at_not_found (env : Env) (showName : String)
    (d : ShowDesc) (hshow : SHOWS showName = some d) (k : Nat)
    (titles : Nat → String) (tk : String) (links : List String)
    (hbefore : ∀ i, 1 ≤ i → i < k →
      env.feed (feedPageUrl (categoryFeedUrl showName) i) = .meta (titles i) [] ∧
        jsStartsWith (titles i) ("Page not found") = false)
    (hk2 : env.feed (feedPageUrl (categoryFeedUrl showName) k) = .meta tk links)
    (hmarker : jsStartsWith tk ("Page not found") = true) :
    ∀ (fuel p : Nat) (st : CrawlSt), 1 ≤ p → p ≤ k → k + 1 ≤ p + fuel →
      crawlLoop env showName fuel p st =
        ({ st with visited := st.visited ++ List.range' p (k + 1 - p) },
         .endOfFeed) := by
  intro fuel
  induction fuel with
  | zero =>
    intro p st _ h2 h3
    omega
  | succ fuel ih =>
    intro p st h1 h2 h3
    by_cases hpk : p = k
    · subst hpk
      have hn : p + 1 - p = 1 := by omega
      unfold crawlLoop getFeedPageLinks
      rw [hshow, hk2]
      simp [hmarker, hn, List.range'_one]
    · have hlt : p < k := by omega
      have hb := hbefore p h1 hlt
      have hn : k + 1 - p = (k - p) + 1 := by omega
      have hm : k + 1 - (p + 1) = k - p := by omega
      unfold crawlLoop getFeedPageLinks
      rw [hshow, hb.1]
      simp only [hb.2, Bool.false_eq_true, if_false]
      dsimp only [processLinks]
      rw [ih (p + 1) _ (by omega) (by omega) (by omega), hm, hn]
      simp [List.range'_succ, List.append_assoc]

/-- C6: the crawl starts at feed page number 1 and advances one page at a
time; a feed page with an empty link list does not stop it; the first page
whose feed title starts with the not-found marker terminates the crawl
normally (no error reaches the caller), and no feed page beyond it is
fetched. -/
theorem crawlCategory_stops_at_not_found (env : Env) (showName : String)
    (cache : Cache) (memo : MemoSt) (d : ShowDesc) (k fuel : Nat)
    (titles : Nat → String) (tk : String) (links : List String)
    (hshow : SHOWS showName = some d)
    (hk : 1 ≤ k) (hfuel : k ≤ fuel)
    (hbefore : ∀ i, 1 ≤ i → i < k →
      env.feed (feedPageUrl (categoryFeedUrl showName) i) = .meta (titles i) [] ∧
        jsStartsWith (titles i) ("Page not found") = false)
    (hk2 : env.feed (feedPageUrl (categoryFeedUrl showName) k) = .meta tk links)
    (hmarker : jsStartsWith tk ("Page not found") = true) :
    (crawlCategory env fuel showName cache memo).exit = .endOfFeed ∧
      (crawlCategory env fuel showName cache memo).visited = List.range' 1 k ∧
      (crawlCategory env fuel showName cache memo).videos = [] := by
  have h := crawlLoop_stops_at_not_found env showName d hshow k titles tk links
    hbefore hk2 hmarker fuel 1 { cache := cache, memo := memo } (by omega) hk
    (by omega)
  have hk1 : k + 1 - 1 = k := by omega
  rw [hk1] at h
  unfold crawlCategory
  dsimp only
  rw [h]
  simp [sortCmp]

/-- Witness for C6: the downtown feed has an ordinary empty page 1 and a
not-found page 2; the crawl visits exactly pages 1 and 2 and ends
normally with no accumulated videos. -/
theorem crawlCategory_stops_at_not_found_witness :
    (crawlCategory envC6 3 ("downtown") {} []).exit = .endOfFeed ∧
      (crawlCategory envC6 3 ("downtown") {} []).visited = [1, 2] ∧
      (crawlCategory envC6 3 ("downtown") {} []).videos = [] := by
  obtain ⟨h1, h2, h3⟩ := crawlCategory_stops_at_not_found envC6 ("downtown") {} []
    { name := "Downtown" } 2 3
    (fun i => if i = 1 then "Downtown feed" else "")
    ("Page not found - blogs.chapman.edu") [] (by decide) (by omega) (by omega)
    (fun i hi1 hi2 => by
      have hi : i = 1 := by omega
      subst hi
      exact ⟨by decide, by decide⟩)
    (by decide) (by decide)
  refine ⟨h1, ?_, h3⟩
  rw [h2]
  decide

/-! Claim C7. -/

/-- Lexicographic comparison is decided by a smaller leading character. -/
theorem lcCompare_cons_lt {x y : Char} (xs ys : List Char) (h : x < y) :
    lcCompare (x :: xs) (y :: ys) = -1 := by
  simp [lcCompare, h]

/-- Lexicographic comparison is decided by a greater leading character. -/
theorem lcCompare_cons_gt {x y : Char} (xs ys : List Char) (h : y < x) :
    lcCompare (x :: xs) (y :: ys) = 1 := by
  have hnx : ¬ x < y := fun h2 => absurd h (lt_asymm h2)
  simp [lcCompare, hnx, h]

/-- C7: the manifest generator sorts the resolved pages by canonical file
name before emitting: three pages whose names begin with B, A and C, in
that crawl order, sort to A then B then C, and the emitted command
sequence lists their command pairs in that order after the `set -e`
prologue. -/
theorem buildCommands_sorted (pA pB pC : Page) (a b c : List Char)
    (hA : (jsStr pA.renamed).data = 'A' :: a)
    (hB : (jsStr pB.renamed).data = 'B' :: b)
    (hC : (jsStr pC.renamed).data = 'C' :: c) :
    sortCmp renamedCompare [pB, pA, pC] = [pA, pB, pC] ∧
      buildCommands [pB, pA, pC] =
        "set -e" :: (pageLines 1 3 pA ++ (pageLines 2 3 pB ++ pageLines 3 3 pC)) := by
  have hAC : renamedCompare pA pC = -1 := by
    simp only [renamedCompare]
    rw [hA, hC]
    exact lcCompare_cons_lt _ _ (by decide)
  have hBA : renamedCompare pB pA = 1 := by
    simp only [renamedCompare]
    rw [hB, hA]
    exact lcCompare_cons_gt _ _ (by decide)
  have hBC : renamedCompare pB pC = -1 := by
    simp only [renamedCompare]
    rw [hB, hC]
    exact lcCompare_cons_lt _ _ (by decide)
  have hsort : sortCmp renamedCompare [pB, pA, pC] = [pA, pB, pC] := by
    simp [sortCmp, insertCmp, hAC, hBA, hBC]
  refine ⟨hsort, ?_⟩
  unfold buildCommands
  dsimp only
  rw [hsort]
  simp [List.enum, List.enumFrom]

/-- Witness for C7 on three concrete pages named Banana, Apple and Cherry
in crawl order. -/
theorem buildCommands_sorted_witness :
    sortCmp renamedCompare [pageC7B, pageC7A, pageC7C] =
      [pageC7A, pageC7B, pageC7C] :=
  (buildCommands_sorted pageC7A pageC7B pageC7C ("pple.mp4").data ("anana.mp4").data
    ("herry.mp4").data (by decide) (by decide) (by decide)).1

end Scraper
